import Mathlib

/-!
Verification of discord-ext-compat (src/discord/ext/compat/__init__.py)
against its natural-language specification.

This file shallowly embeds the library's core: the option-descriptor store
and override engine (`override_option`, `describe`), the Injector's
registration-time inference (`Injector.inject`, lines 85-176 of the source),
the deferred-registration partial stored on bare callbacks (lines 68-80),
the interaction-aware context adapter (`InteractionAwareContext.send`,
`defer`, `reply`), the synthesized message (`MakeshiftMessage.edit`) and the
`Range` text-path converter.

Conventions of the embedding:
 - the sentinel `discord.utils.MISSING` is `Option.none`; a field of a
   descriptor or an argument that was never supplied is `none`;
 - Python objects that can stand in a descriptor's `default` slot are the
   inductive `PyObj` (Python's `None` is `PyObj.pynone`);
 - the host platform (discord) is modelled as an explicit interaction state:
   a `responded` flag (discord's `InteractionResponse.is_done`) plus a log of
   the platform calls actually performed;
 - asynchronous host calls are modelled as state transitions; a coroutine
   that the source creates but never awaits performs no transition.
-/

/-- A Python value that can sit in an option's `default` slot (or be a parsed
argument). `pynone` is Python's `None`, distinct from an unset (`MISSING`)
field which the embedding writes as `Option.none`. -/
inductive PyObj where
  | pynone : PyObj
  | int (n : Int) : PyObj
  | float (q : Rat) : PyObj
  | str (s : String) : PyObj
  | bool (b : Bool) : PyObj
deriving DecidableEq

/-- discord.ApplicationCommandOptionType: the structured option types the
Annotation Resolver can produce. -/
inductive ApplicationCommandOptionType where
  | string | integer | number | boolean | user | channel | role | mentionable | attachment
deriving DecidableEq

/-- One option descriptor, as `discord.application_commands.option(...)`
builds it: every field starts unset (`MISSING` = `none`). The store entry
created lazily by `defaultdict(lambda: option(description=MISSING))` is the
all-`none` descriptor `{}`. -/
structure OptionDescriptor where
  type : Option ApplicationCommandOptionType := none
  name : Option String := none
  description : Option String := none
  required : Option Bool := none
  optional : Option Bool := none
  choices : Option (List (String × PyObj)) := none
  channel_types : Option (List Nat) := none
  min_value : Option PyObj := none
  max_value : Option PyObj := none
  default : Option PyObj := none
deriving DecidableEq

/-- The per-callback option store `func.__compat_application_command_options__`:
a `defaultdict` from parameter name to descriptor. The defaultdict's lazy
default makes it a total map whose untouched entries are the placeholder
descriptor. -/
def OptionStore := String → OptionDescriptor

/-- A fresh store: no override has run, every entry is the placeholder. -/
def emptyStore : OptionStore := fun _ => {}

/-- Writing one key of the store (Python mutates the defaultdict entry in
place; the embedding updates the map). -/
def OptionStore.update (opts : OptionStore) (k : String) (d : OptionDescriptor) : OptionStore :=
  fun q => if q = k then d else opts q

/-- The keyword arguments of `override_option` (source lines 179-192). Every
parameter except `default` has sentinel default `MISSING` (= `none` here);
`default` is declared `default: Any = None`, so it always carries a Python
value — `PyObj.pynone` when the caller does not supply it. -/
structure OverrideArgs where
  type : Option ApplicationCommandOptionType := none
  name : Option String := none
  description : Option String := none
  required : Option Bool := none
  optional : Option Bool := none
  choices : Option (List (String × PyObj)) := none
  channel_types : Option (List Nat) := none
  min_value : Option PyObj := none
  max_value : Option PyObj := none
  default : PyObj := PyObj.pynone
deriving DecidableEq

/-- Modelled from the spec: `option(**kwargs)` (imported from the host's
application-commands module, not in src/) builds a transient descriptor
holding exactly the supplied fields — "constructing a transient descriptor
from the override arguments" (spec section 4.3). -/
def option (args : OverrideArgs) : OptionDescriptor :=
  { type := args.type
    name := args.name
    description := args.description
    required := args.required
    optional := args.optional
    choices := args.choices
    channel_types := args.channel_types
    min_value := args.min_value
    max_value := args.max_value
    default := some args.default }

/-- `override_option(param_name, ...)` (source lines 240-272): fetch (or
lazily create) the descriptor for `param_name`, build the transient
descriptor `new = option(**kwargs)`, and for every kwarg whose value is not
`MISSING` copy `getattr(new, key)` onto the current descriptor. Because the
`default` parameter defaults to `None` (never `MISSING`), the `default` slot
is copied on every call. -/
def override_option (param_name : String) (args : OverrideArgs) (opts : OptionStore) : OptionStore :=
  let current := opts param_name
  let new := option args
  let merged : OptionDescriptor :=
    { type := if args.type.isSome then new.type else current.type
      name := if args.name.isSome then new.name else current.name
      description := if args.description.isSome then new.description else current.description
      required := if args.required.isSome then new.required else current.required
      optional := if args.optional.isSome then new.optional else current.optional
      choices := if args.choices.isSome then new.choices else current.choices
      channel_types := if args.channel_types.isSome then new.channel_types else current.channel_types
      min_value := if args.min_value.isSome then new.min_value else current.min_value
      max_value := if args.max_value.isSome then new.max_value else current.max_value
      default := new.default }
  opts.update param_name merged

/-- `describe(param_name, description)` (source lines 275-283): the shortcut
`override_option(param_name, description=description)`. -/
def describe (param_name description : String) (opts : OptionStore) : OptionStore :=
  override_option param_name { description := some description } opts

/-- A parameter type hint as the callback's `__annotations__` record it. The
embedding keeps the hints the library's documented examples use; `unsupported`
stands for any hint the Annotation Resolver cannot resolve. -/
inductive Ann where
  | int | str | bool | float | unsupported
deriving DecidableEq

/-- Modelled from the spec: `_resolve_option_annotation` (the Annotation
Resolver of spec section 4.1, imported from the host's application-commands
module and absent from src/). It turns the hint into a type fragment and
merges it onto the descriptor, filling only fields that are still unset
("override takes precedence, inference fills gaps", spec section 4.4); an
annotation it cannot resolve raises TypeError, modelled as `Except.error`. -/
def resolveOptionAnn (current : OptionDescriptor) (ann : Ann) : Except Unit OptionDescriptor :=
  let fill := fun (t : ApplicationCommandOptionType) =>
    { current with type := some (current.type.getD t) }
  match ann with
  | Ann.int => Except.ok (fill ApplicationCommandOptionType.integer)
  | Ann.str => Except.ok (fill ApplicationCommandOptionType.string)
  | Ann.bool => Except.ok (fill ApplicationCommandOptionType.boolean)
  | Ann.float => Except.ok (fill ApplicationCommandOptionType.number)
  | Ann.unsupported => Except.error ()

/-- One entry of `command.clean_params`: a legacy parameter. `default = none`
is `inspect.Parameter.empty` (the parameter has no default). -/
structure Param where
  default : Option PyObj := none
deriving DecidableEq

/-- The slice of a legacy `commands.Command` the Injector reads: its name,
its `short_doc`, the callback's `__name__`, its cleaned parameter list (in
declaration order, `ctx`/`self` already stripped), the callback's
`__annotations__`, and — when the command's parent was itself previously
injected — that parent's generated structured-command identity
(`command.parent.__compat_application_command__`). -/
structure LegacyCommand where
  name : String
  func_name : String
  short_doc : String := ""
  clean_params : List (String × Param) := []
  annotations : List (String × Ann) := []
  parent_compat : Option String := none

/-- The application-command type enum (only `chat_input` is exercised). -/
inductive ApplicationCommandType where
  | chat_input | user | message
deriving DecidableEq

/-- The keyword arguments of `Injector.inject` (source lines 52-64), each
defaulting to `MISSING` (or to the literal Python default shown). -/
structure InjectArgs where
  name : Option String := none
  type : ApplicationCommandType := ApplicationCommandType.chat_input
  description : Option String := none
  parent : Option String := none
  default_permission : Bool := true
  option_kwargs : Option (List (String × PyObj)) := none
  guild_id : Option Int := none
  tree : Option String := none
  excluded_options : List String := []
deriving DecidableEq

/-- The annotation branch of the inference loop (source lines 121-125): if
the parameter has a hint, run the Annotation Resolver on the descriptor;
on TypeError fall back to the plain string type. -/
def annotBranch (annotations : List (String × Ann)) (key : String)
    (current : OptionDescriptor) : OptionDescriptor :=
  match (annotations.find? (fun kv => kv.1 = key)).map Prod.snd with
  | none => current
  | some ann =>
    match resolveOptionAnn current ann with
    | Except.ok resolved => resolved
    | Except.error _ => { current with type := some ApplicationCommandOptionType.string }

/-- One iteration of the inference loop of `Injector.inject` (source lines
107-125): skip excluded parameters; a parameter without a default is only
marked required (the `continue` skips everything else, the annotation branch
included); a parameter with a default is marked optional, carries the
default, and then has its annotation resolved. -/
def inferStep (annotations : List (String × Ann)) (excluded : List String)
    (opts : OptionStore) (kp : String × Param) : OptionStore :=
  if kp.1 ∈ excluded then opts
  else
    let current := opts kp.1
    match kp.2.default with
    | none => opts.update kp.1 { current with required := some true }
    | some d =>
      let current := { current with required := some false, default := some d }
      opts.update kp.1 (annotBranch annotations kp.1 current)

/-- The inference loop over the whole parameter list, left to right. -/
def inferList (annotations : List (String × Ann)) (excluded : List String) :
    List (String × Param) → OptionStore → OptionStore
  | [], opts => opts
  | kp :: rest, opts => inferList annotations excluded rest (inferStep annotations excluded opts kp)

/-- The descriptor-inference pass of `Injector.inject` for one command
(source lines 107-125). -/
def Injector.inferOptions (cmd : LegacyCommand) (excluded : List String)
    (opts : OptionStore) : OptionStore :=
  inferList cmd.annotations excluded cmd.clean_params opts

/-- Python's `s[:n]` on a string. -/
def pySlice (s : String) (n : Nat) : String := String.mk (s.data.take n)

/-- The finalized command schema handed to the host registry (the
`ApplicationCommandMeta(...)` call of source lines 152-171; the opaque
`os.urandom` registration identity is not observable and not modelled). -/
structure CommandSchema where
  type : ApplicationCommandType
  name : String
  description : String
  parent : Option String
  default_permission : Bool
  guild_id : Option Int
  options : OptionStore

/-- The registration path of `Injector.inject` applied to a resolved legacy
command (source lines 82-174): resolve the name (explicit or the command's
own), fill the description from the first 100 characters of `short_doc` when
none was given, inherit a previously injected parent's generated identity,
raise `ValueError` when the description is missing or empty (Python's
`if not description`), run the inference loop over the attached option store,
and hand the finalized schema to the host registry. A raise happens before
`add_application_command`, so an `Except.error` result registers nothing. -/
def Injector.inject (args : InjectArgs) (cmd : LegacyCommand) (opts : OptionStore) :
    Except String CommandSchema :=
  let name := args.name.getD cmd.name
  let description :=
    if args.description.isNone ∧ cmd.short_doc ≠ "" then some (pySlice cmd.short_doc 100)
    else args.description
  let parent :=
    if args.parent.isNone then cmd.parent_compat else args.parent
  match description with
  | none =>
    Except.error ("tried to convert " ++ cmd.func_name ++
      " into an application command, but it has no description")
  | some d =>
    if d = "" then
      Except.error ("tried to convert " ++ cmd.func_name ++
        " into an application command, but it has no description")
    else
      Except.ok
        { type := args.type
          name := name
          description := d
          parent := parent
          default_permission := args.default_permission
          guild_id := args.guild_id
          options := Injector.inferOptions cmd args.excluded_options opts }

/-- The pending-injection metadata `Injector.inject` stores on a bare
callback (source lines 68-80): `functools.partial(self.inject, name=...,
type=..., description=..., parent=..., default_permission=...,
option_kwargs=..., guild_id=..., tree=...)`. The partial captures those
eight keyword arguments; `excluded_options` is not among them, so when
`CompatBotMixin.add_command` later calls the partial with no arguments the
deferred registration runs with the default `excluded_options=()`. -/
def compatInjectPending (args : InjectArgs) : InjectArgs :=
  { name := args.name
    type := args.type
    description := args.description
    parent := args.parent
    default_permission := args.default_permission
    option_kwargs := args.option_kwargs
    guild_id := args.guild_id
    tree := args.tree
    excluded_options := [] }

/-- The later binding step (`CompatBotMixin.add_command`, source lines
377-385): a callback carrying `__compat_inject__` has its stored partial
applied to the now-existing command. -/
def add_command_bind (args : InjectArgs) (cmd : LegacyCommand) (opts : OptionStore) :
    Except String CommandSchema :=
  Injector.inject (compatInjectPending args) cmd opts

/-- A call actually performed against the host platform. The constructors
carry the content/kwargs the call was handed (kwargs as the list of keyword
names still present after any stripping). -/
inductive PlatformCall where
  | sendMessage (content : Option String) (kwargs : List String)
  | followupSend (content : Option String) (kwargs : List String)
  | editMessage (kwargs : List String)
  | editOriginal (kwargs : List String)
  | deferResponse (loading ephemeral : Bool)
  | legacySend (content : Option String) (kwargs : List String)
  | messageEdit (kwargs : List String)
deriving DecidableEq

/-- Whether a platform call is the regular message-edit path
(`discord.Message.edit`), which the synthesized message must never use. -/
def PlatformCall.isMessageEdit : PlatformCall → Bool
  | PlatformCall.messageEdit _ => true
  | _ => false

/-- The observable state of one interaction: discord's
`InteractionResponse.is_done` flag (`responded`) and the log of platform
calls performed so far. -/
structure InteractionState where
  responded : Bool := false
  calls : List PlatformCall := []
deriving DecidableEq

/-- A fresh interaction: NOT_RESPONDED, nothing sent. -/
def freshInteraction : InteractionState := {}

/-- The context adapter: `InteractionAwareContext.__init__` attaches the
interaction when the message is a `MakeshiftMessage`, else `None`; the
embedding keeps just that fact. -/
structure InteractionAwareContext where
  interaction : Bool

/-- `InteractionAwareContext.is_interaction` (source lines 457-459). -/
def InteractionAwareContext.is_interaction (ctx : InteractionAwareContext) : Bool :=
  ctx.interaction

/-- A context built from a structured interaction. -/
def interactionCtx : InteractionAwareContext := ⟨true⟩

/-- A plain legacy (text) context: no interaction attached. -/
def legacyCtx : InteractionAwareContext := ⟨false⟩

/-- `kwargs.pop(key, None)` for each key of `keys`. -/
def stripKeys (kwargs keys : List String) : List String :=
  kwargs.filter (fun k => ¬ keys.contains k)

/-- The kwargs `InteractionAwareContext.send` strips on the interaction path
(source line 463). -/
def interactionStripped : List String := ["reference", "mention_after", "delete_after", "nonce"]

/-- `InteractionAwareContext.send` (source lines 461-473): on an
interaction-backed context, strip the legacy-only kwargs and dispatch by
phase — `interaction.response.send_message` when the response is not yet
done (the host call that flips `is_done` to true), `interaction.followup.send`
when it is; on a plain context, strip `ephemeral` and delegate to the legacy
`commands.Context.send`. -/
def InteractionAwareContext.send (ctx : InteractionAwareContext) (content : Option String)
    (kwargs : List String) (st : InteractionState) : InteractionState :=
  if ctx.is_interaction then
    let kwargs := stripKeys kwargs interactionStripped
    if st.responded then
      { st with calls := st.calls ++ [PlatformCall.followupSend content kwargs] }
    else
      { responded := true, calls := st.calls ++ [PlatformCall.sendMessage content kwargs] }
  else
    let kwargs := stripKeys kwargs ["ephemeral"]
    { st with calls := st.calls ++ [PlatformCall.legacySend content kwargs] }

/-- A sequence of `send` calls on one context, in order. -/
def sendSeq (ctx : InteractionAwareContext) :
    List (Option String × List String) → InteractionState → InteractionState
  | [], st => st
  | ck :: rest, st => sendSeq ctx rest (ctx.send ck.1 ck.2 st)

/-- `MakeshiftMessage.edit` (source lines 438-444): a synthesized message
edits through the interaction — `interaction.edit_original_message` once the
response is done, otherwise `interaction.response.edit_message` (a response,
so the host marks the interaction responded). The regular
`discord.Message.edit` path is never taken. -/
def MakeshiftMessage.edit (kwargs : List String) (st : InteractionState) : InteractionState :=
  if st.responded then
    { st with calls := st.calls ++ [PlatformCall.editOriginal kwargs] }
  else
    { responded := true, calls := st.calls ++ [PlatformCall.editMessage kwargs] }

/-- What the host's `InteractionResponse.defer` does when it is actually
awaited (external interface, spec section 6): raises `InteractionResponded`
when the interaction was already responded to, otherwise performs the
deferral and marks the interaction responded. -/
inductive HostError where
  | interactionResponded
  | httpException
deriving DecidableEq

/-- The deferral the platform would perform if the call were awaited. -/
def InteractionResponse.deferHost (loading ephemeral : Bool) (st : InteractionState) :
    Except HostError InteractionState :=
  if st.responded then Except.error HostError.interactionResponded
  else Except.ok { responded := true,
                   calls := st.calls ++ [PlatformCall.deferResponse loading ephemeral] }

/-- `InteractionAwareContext.defer` (source lines 475-507): on an
interaction-backed context the source evaluates
`self.interaction.response.defer(loading=..., ephemeral=...)` WITHOUT
awaiting it — the coroutine is created and dropped, so no platform call is
performed, the state is unchanged and no exception can surface; on a plain
context it does nothing. The returned `Except` is what the caller observes
(always success). -/
def InteractionAwareContext.defer (ctx : InteractionAwareContext) (loading ephemeral : Bool)
    (st : InteractionState) : InteractionState × Except HostError Unit :=
  if ctx.is_interaction then
    let _unawaited := InteractionResponse.deferHost loading ephemeral st
    (st, Except.ok ())
  else
    (st, Except.ok ())

/-- `InteractionAwareContext.reply` (source lines 509-511): `func = self.send
if self.is_interaction() else self.reply; await func(...)`. On a plain
context `func` is `reply` itself, so the call recurses with the same
arguments; the embedding indexes the recursion by fuel, `none` meaning the
call never returns (Python: unbounded recursion). -/
def InteractionAwareContext.reply (fuel : Nat) (ctx : InteractionAwareContext)
    (content : Option String) (kwargs : List String) (st : InteractionState) :
    Option InteractionState :=
  match fuel with
  | 0 => none
  | fuel + 1 =>
    if ctx.is_interaction then some (ctx.send content kwargs st)
    else InteractionAwareContext.reply fuel ctx content kwargs st

/-- Python's `int(...)` on the decimal digits of a token: an optional sign
followed by at least one digit (the whitespace/underscore forms Python also
accepts are not exercised by the library or the spec). -/
def digitsToNat (cs : List Char) : Option Nat :=
  if cs.isEmpty then none
  else cs.foldl (fun acc c =>
    match acc with
    | none => none
    | some a => if c.isDigit then some (a * 10 + (c.toNat - 48)) else none) (some 0)

/-- `int(argument)` for a string argument: `none` models ValueError. -/
def pyIntParse (s : String) : Option Int :=
  match s.data with
  | [] => none
  | c :: rest =>
    if c = Char.ofNat 45 then (digitsToNat rest).map (fun m => -(m : Int))
    else if c = Char.ofNat 43 then (digitsToNat rest).map (fun m => (m : Int))
    else (digitsToNat (c :: rest)).map (fun m => (m : Int))

/-- The value a converter may return: the source's return annotation is
`Union[int, float]`. -/
inductive PyNumber where
  | intVal (n : Int)
  | floatVal (q : Rat)
deriving DecidableEq

/-- `Range` (source lines 514-526), at the integral bounds the claims use:
`min_value`/`max_value` as carried by the annotation. -/
structure Range where
  min_value : Int
  max_value : Int
deriving DecidableEq

/-- `commands.BadArgument` raised by `Range.convert`: the f-string
`f'Expected a number between {self.min_value} and {self.max_value}, but got
{argument!r} instead'`. After a successful `int` parse `argument` is rebound
to the int (repr without quotes); on ValueError it is still the raw string
(repr with quotes). -/
def Range.badArgument (r : Range) (got : String) : String :=
  "Expected a number between " ++ toString r.min_value ++ " and " ++
    toString r.max_value ++ ", but got " ++ got ++ " instead"

/-- Python `repr` of a simple string token (no escapes needed). -/
def pyReprStr (s : String) : String :=
  String.singleton (Char.ofNat 39) ++ s ++ String.singleton (Char.ofNat 39)

/-- `Range.convert` (source lines 515-526): try `int(argument)`; on success
return the integer when it lies within `[min_value, max_value]`; any other
outcome (ValueError or out of bounds) raises `commands.BadArgument` carrying
the attempted value and the valid range. -/
def Range.convert (r : Range) (argument : String) : Except String PyNumber :=
  match pyIntParse argument with
  | some n =>
    if r.min_value ≤ n ∧ n ≤ r.max_value then Except.ok (PyNumber.intVal n)
    else Except.error (r.badArgument (toString n))
  | none => Except.error (r.badArgument (pyReprStr argument))

/-- The spec's end-to-end example: `async def add(ctx, a: int, b: int)`
documented "Adds two numbers together" (source lines 333-340). -/
def addCommand : LegacyCommand :=
  { name := "add"
    func_name := "add"
    short_doc := "Adds two numbers together"
    clean_params := [("a", {}), ("b", {})]
    annotations := [("a", Ann.int), ("b", Ann.int)] }

/-- A command with one defaulted, annotated parameter `flag: bool = True`. -/
def greetCommand : LegacyCommand :=
  { name := "greet"
    func_name := "greet"
    short_doc := "Greets someone"
    clean_params := [("flag", { default := some (PyObj.bool true) })]
    annotations := [("flag", Ann.bool)] }

/-- A store where `override_option("x", default=5)` has run. -/
def c2Store : OptionStore :=
  override_option "x" { default := PyObj.int 5 } emptyStore

/-- A store where `override_option("x", required=True, default=10)` has run. -/
def c3Store : OptionStore :=
  override_option "x" { required := some true, default := PyObj.int 10 } emptyStore

/-- A command whose parameter `x` has signature default `3`. -/
def c3Command : LegacyCommand :=
  { name := "cmd"
    func_name := "cmd"
    short_doc := "A command"
    clean_params := [("x", { default := some (PyObj.int 3) })] }

/-- `inject(excluded_options={"b"})` as given at decoration time. -/
def c9Args : InjectArgs := { excluded_options := ["b"] }

/-- An interaction that has already been responded to. -/
def respondedInteraction : InteractionState := { responded := true }

/-! Helper lemmas about the store and the inference loop. -/

theorem OptionStore.update_self (opts : OptionStore) (k : String) (d : OptionDescriptor) :
    opts.update k d k = d := by
  simp [OptionStore.update]

theorem OptionStore.update_other (opts : OptionStore) (k : String) (d : OptionDescriptor)
    (q : String) (h : q ≠ k) : opts.update k d q = opts q := by
  simp [OptionStore.update, h]

/-- The annotation branch changes at most the `type` field. -/
theorem annotBranch_fields (anns : List (String × Ann)) (key : String) (c : OptionDescriptor) :
    (annotBranch anns key c).required = c.required ∧
    (annotBranch anns key c).default = c.default ∧
    (annotBranch anns key c).description = c.description ∧
    (annotBranch anns key c).name = c.name := by
  unfold annotBranch
  cases h : (anns.find? (fun kv => kv.1 = key)).map Prod.snd with
  | none => simp
  | some a => cases a <;> simp [resolveOptionAnn]

/-- One inference step leaves every other key's descriptor alone. -/
theorem inferStep_other (anns : List (String × Ann)) (ex : List String)
    (opts : OptionStore) (kp : String × Param) (q : String) (h : q ≠ kp.1) :
    inferStep anns ex opts kp q = opts q := by
  unfold inferStep
  split
  · rfl
  · cases kp.2.default <;> simp [OptionStore.update, h]

/-- One inference step never touches a descriptor's description. -/
theorem inferStep_description (anns : List (String × Ann)) (ex : List String)
    (opts : OptionStore) (kp : String × Param) (q : String) :
    (inferStep anns ex opts kp q).description = (opts q).description := by
  by_cases h : q = kp.1
  · subst h
    unfold inferStep
    split
    · rfl
    · cases hd : kp.2.default with
      | none => simp [OptionStore.update]
      | some d =>
        simp only [hd, OptionStore.update_self]
        exact (annotBranch_fields anns kp.1 _).2.2.1
  · rw [inferStep_other anns ex opts kp q h]

/-- Keys not named by the remaining parameter list are untouched. -/
theorem inferList_not_mem (anns : List (String × Ann)) (ex : List String)
    (l : List (String × Param)) (opts : OptionStore) (key : String)
    (h : key ∉ l.map Prod.fst) : inferList anns ex l opts key = opts key := by
  induction l generalizing opts with
  | nil => rfl
  | cons kp rest ih =>
    have h1 : key ∉ rest.map Prod.fst := fun hm => h (List.mem_cons_of_mem _ hm)
    have h2 : key ≠ kp.1 := fun he => h (by simp [he])
    rw [inferList, ih _ h1, inferStep_other anns ex opts kp key h2]

/-- The whole inference pass never touches a description. -/
theorem inferList_description (anns : List (String × Ann)) (ex : List String)
    (l : List (String × Param)) (opts : OptionStore) (key : String) :
    (inferList anns ex l opts key).description = (opts key).description := by
  induction l generalizing opts with
  | nil => rfl
  | cons kp rest ih =>
    rw [inferList, ih, inferStep_description]

/-- What the loop does to a non-excluded parameter without a default: only
mark it required (keys are assumed distinct, as Python parameter names are). -/
theorem inferList_mem_nodefault (anns : List (String × Ann)) (ex : List String)
    (l : List (String × Param)) (opts : OptionStore) (key : String) (p : Param)
    (hnd : (l.map Prod.fst).Nodup) (hmem : (key, p) ∈ l) (hex : key ∉ ex)
    (hdef : p.default = none) :
    inferList anns ex l opts key = { opts key with required := some true } := by
  induction l generalizing opts with
  | nil => cases hmem
  | cons kp rest ih =>
    have hnd2 : (kp.1 :: rest.map Prod.fst).Nodup := by
      rw [List.map_cons] at hnd; exact hnd
    have hnd' := List.nodup_cons.mp hnd2
    rcases List.mem_cons.mp hmem with heq | hmem'
    · have hk : kp.1 = key := by rw [← heq]
      rw [inferList, inferList_not_mem anns ex rest _ key (hk ▸ hnd'.1)]
      have : inferStep anns ex opts kp key = { opts key with required := some true } := by
        rw [← heq]
        unfold inferStep
        simp only [← heq] at hex ⊢
        rw [if_neg hex]
        simp [hdef, OptionStore.update_self]
      rw [this]
    · have hne : key ≠ kp.1 := by
        intro he
        exact hnd'.1 (he ▸ List.mem_map_of_mem Prod.fst hmem')
      rw [inferList, ih _ hnd'.2 hmem', inferStep_other anns ex opts kp key hne]

/-- What the loop does to a non-excluded parameter with a default: mark it
optional, carry the default, then run the annotation branch. -/
theorem inferList_mem_default (anns : List (String × Ann)) (ex : List String)
    (l : List (String × Param)) (opts : OptionStore) (key : String) (p : Param) (d : PyObj)
    (hnd : (l.map Prod.fst).Nodup) (hmem : (key, p) ∈ l) (hex : key ∉ ex)
    (hdef : p.default = some d) :
    inferList anns ex l opts key =
      annotBranch anns key { opts key with required := some false, default := some d } := by
  induction l generalizing opts with
  | nil => cases hmem
  | cons kp rest ih =>
    have hnd2 : (kp.1 :: rest.map Prod.fst).Nodup := by
      rw [List.map_cons] at hnd; exact hnd
    have hnd' := List.nodup_cons.mp hnd2
    rcases List.mem_cons.mp hmem with heq | hmem'
    · have hk : kp.1 = key := by rw [← heq]
      rw [inferList, inferList_not_mem anns ex rest _ key (hk ▸ hnd'.1)]
      rw [← heq]
      unfold inferStep
      simp only [← heq] at hex ⊢
      rw [if_neg hex]
      simp [hdef, OptionStore.update_self]
    · have hne : key ≠ kp.1 := by
        intro he
        exact hnd'.1 (he ▸ List.mem_map_of_mem Prod.fst hmem')
      rw [inferList, ih _ hnd'.2 hmem', inferStep_other anns ex opts kp key hne]

/-- Once the interaction is responded, every further `send` is a followup and
the phase never leaves RESPONDED. -/
theorem sendSeq_responded (l : List (Option String × List String)) (st : InteractionState)
    (h : st.responded = true) :
    sendSeq interactionCtx l st =
      { responded := true,
        calls := st.calls ++
          l.map (fun ck => PlatformCall.followupSend ck.1 (stripKeys ck.2 interactionStripped)) } := by
  induction l generalizing st with
  | nil =>
    cases st with
    | mk r calls => simp at h; simp [sendSeq, h]
  | cons ck rest ih =>
    rw [sendSeq]
    have hsend : interactionCtx.send ck.1 ck.2 st =
        { responded := st.responded,
          calls := st.calls ++ [PlatformCall.followupSend ck.1 (stripKeys ck.2 interactionStripped)] } := by
      simp [InteractionAwareContext.send, interactionCtx, InteractionAwareContext.is_interaction, h]
    rw [hsend, ih _ (by simp [h])]
    simp [h]

/-- On a plain legacy context, `reply` never returns, whatever the recursion
budget: the source's non-interaction branch calls `self.reply` itself. -/
theorem reply_legacy_diverges (fuel : Nat) (content : Option String) (kwargs : List String)
    (st : InteractionState) :
    InteractionAwareContext.reply fuel legacyCtx content kwargs st = none := by
  induction fuel with
  | zero => rfl
  | succ n ih =>
    rw [InteractionAwareContext.reply]
    simp only [legacyCtx, InteractionAwareContext.is_interaction, Bool.false_eq_true, if_false]
    exact ih

/-- C4: on an interaction-backed context the first `send` performs the
initial response (`response.send_message`) and flips the phase from
NOT_RESPONDED to RESPONDED; every subsequent `send` on the same context goes
through the followup path (`followup.send`) and never through the
initial-response path again. -/
theorem send_phase_law (c : Option String) (k : List String)
    (rest : List (Option String × List String)) :
    (sendSeq interactionCtx ((c, k) :: rest) freshInteraction).responded = true ∧
    (sendSeq interactionCtx ((c, k) :: rest) freshInteraction).calls =
      PlatformCall.sendMessage c (stripKeys k interactionStripped) ::
        rest.map (fun ck => PlatformCall.followupSend ck.1 (stripKeys ck.2 interactionStripped)) := by
  have hfirst : interactionCtx.send c k freshInteraction =
      { responded := true,
        calls := [PlatformCall.sendMessage c (stripKeys k interactionStripped)] } := by
    simp [InteractionAwareContext.send, interactionCtx, InteractionAwareContext.is_interaction,
      freshInteraction]
  rw [sendSeq, hfirst, sendSeq_responded _ _ rfl]
  simp

/-- C5: a synthesized message's `edit` dispatches on the response phase —
the response-edit call (`response.edit_message`) before any response was
sent, the dedicated `edit_original_message` call once one was — and never
goes through the regular message-edit path. -/
theorem edit_phase_law (k k2 : List String) (c : Option String) (kw : List String)
    (st : InteractionState) :
    (MakeshiftMessage.edit k st).calls =
      st.calls ++ [if st.responded then PlatformCall.editOriginal k else PlatformCall.editMessage k] ∧
    (if st.responded then PlatformCall.editOriginal k else PlatformCall.editMessage k).isMessageEdit
      = false ∧
    (MakeshiftMessage.edit k freshInteraction).calls = [PlatformCall.editMessage k] ∧
    (MakeshiftMessage.edit k2 (interactionCtx.send c kw freshInteraction)).calls =
      [PlatformCall.sendMessage c (stripKeys kw interactionStripped),
       PlatformCall.editOriginal k2] := by
  refine ⟨?_, ?_, ?_, ?_⟩
  · cases h : st.responded <;> simp [MakeshiftMessage.edit, h]
  · cases h : st.responded <;> simp [PlatformCall.isMessageEdit]
  · simp [MakeshiftMessage.edit, freshInteraction]
  · simp [MakeshiftMessage.edit, InteractionAwareContext.send, interactionCtx,
      InteractionAwareContext.is_interaction, freshInteraction]

/-- C6 (code bug): `InteractionAwareContext.defer` creates the host coroutine
`interaction.response.defer(...)` without awaiting it, so on every context —
interaction-backed or not, already responded or not — it changes nothing and
reports success; in particular on an already-responded interaction it does
not surface the `InteractionResponded` error the host deferral would raise
(and that the method's own docstring promises). -/
theorem defer_unawaited_noop (ctx : InteractionAwareContext) (loading ephemeral : Bool)
    (st : InteractionState) :
    InteractionAwareContext.defer ctx loading ephemeral st = (st, Except.ok ()) ∧
    InteractionAwareContext.defer interactionCtx false false respondedInteraction =
      (respondedInteraction, Except.ok ()) ∧
    InteractionResponse.deferHost false false respondedInteraction =
      Except.error HostError.interactionResponded := by
  refine ⟨?_, ?_, ?_⟩
  · unfold InteractionAwareContext.defer
    split <;> rfl
  · rfl
  · rfl

/-- C7 (code bug): `reply` on an interaction-backed context is exactly `send`,
but on a plain legacy context the source binds `func = self.reply` — the
method itself — so the call recurses forever and never reaches the base
context's threaded-reply path: for every recursion budget it fails to return. -/
theorem reply_self_recursion (fuel : Nat) (content : Option String) (kwargs : List String)
    (st : InteractionState) :
    InteractionAwareContext.reply fuel legacyCtx content kwargs st = none ∧
    InteractionAwareContext.reply (fuel + 1) interactionCtx content kwargs st =
      some (interactionCtx.send content kwargs st) := by
  refine ⟨reply_legacy_diverges fuel content kwargs st, ?_⟩
  rw [InteractionAwareContext.reply]
  simp [interactionCtx, InteractionAwareContext.is_interaction]

/-- C10: the `Range(1, 10)` text-path converter parses "5" to the integer 5,
rejects "15" and "abc" with a BadArgument message naming the range 1 to 10,
and can only ever return an integer value. -/
theorem range_convert_law :
    Range.convert ⟨1, 10⟩ "5" = Except.ok (PyNumber.intVal 5) ∧
    Range.convert ⟨1, 10⟩ "15" =
      Except.error "Expected a number between 1 and 10, but got 15 instead" ∧
    Range.convert ⟨1, 10⟩ "abc" =
      Except.error ("Expected a number between 1 and 10, but got " ++ pyReprStr "abc" ++ " instead") ∧
    ∀ (r : Range) (s : String) (v : PyNumber),
      Range.convert r s = Except.ok v → ∃ n, v = PyNumber.intVal n := by
  refine ⟨rfl, rfl, rfl, ?_⟩
  intro r s v h
  unfold Range.convert at h
  split at h
  · split at h
    · injection h with h2
      exact ⟨_, h2.symm⟩
    · exact absurd h (by simp)
  · exact absurd h (by simp)

/-- The first 100 characters of a non-empty string are non-empty. -/
theorem pySlice_100_ne_empty (s : String) (h : s ≠ "") : pySlice s 100 ≠ "" := by
  cases s with
  | mk data =>
    cases data with
    | nil => exact absurd rfl h
    | cons c cs =>
      intro he
      have hd2 := congrArg String.data he
      simp [pySlice] at hd2

/-- C1 counterexample: running the registration-time inference on the spec's
own `add(ctx, a: int, b: int)` command leaves the required parameter `a` with
its type unset — the Annotation Resolver is never run on a parameter without
a default, so no integer fragment is merged onto its descriptor. -/
theorem required_param_type_unresolved :
    (Injector.inferOptions addCommand [] emptyStore "a").required = some true ∧
    (Injector.inferOptions addCommand [] emptyStore "a").type = none ∧
    (Injector.inferOptions addCommand [] emptyStore "a").type ≠
      some ApplicationCommandOptionType.integer := by
  decide

/-- C1 (amended): the inference loop runs the Annotation Resolver only on
non-excluded parameters that have a default value; a parameter without a
default is only marked required (the loop's `continue` skips annotation
resolution, leaving every other descriptor field — the type included —
untouched), while a defaulted parameter is marked optional, carries its
default, and then goes through the annotation branch. -/
theorem inference_resolves_defaulted_only (cmd : LegacyCommand) (ex : List String)
    (opts : OptionStore) (key : String) (p : Param)
    (hnd : (cmd.clean_params.map Prod.fst).Nodup)
    (hmem : (key, p) ∈ cmd.clean_params) (hex : key ∉ ex) :
    (p.default = none →
      Injector.inferOptions cmd ex opts key = { opts key with required := some true }) ∧
    (∀ d, p.default = some d →
      Injector.inferOptions cmd ex opts key =
        annotBranch cmd.annotations key
          { opts key with required := some false, default := some d }) :=
  ⟨fun h => inferList_mem_nodefault cmd.annotations ex cmd.clean_params opts key p hnd hmem hex h,
   fun d h => inferList_mem_default cmd.annotations ex cmd.clean_params opts key p d hnd hmem hex h⟩

/-- Witness for the amended C1, at the spec's `add` command (required
parameter) and at `greet` (defaulted parameter). -/
theorem inference_resolves_defaulted_only_witness :
    (Injector.inferOptions addCommand [] emptyStore "a" =
      { emptyStore "a" with required := some true }) ∧
    (Injector.inferOptions greetCommand [] emptyStore "flag" =
      annotBranch greetCommand.annotations "flag"
        { emptyStore "flag" with required := some false, default := some (PyObj.bool true) }) :=
  ⟨(inference_resolves_defaulted_only addCommand [] emptyStore "a" {}
      (by decide) (by decide) (by decide)).1 rfl,
   (inference_resolves_defaulted_only greetCommand [] emptyStore "flag"
      { default := some (PyObj.bool true) } (by decide) (by decide) (by decide)).2
      (PyObj.bool true) rfl⟩

/-- C2 counterexample: after `override_option("x", default=5)`, the
description-only override `describe("x", ...)` resets the previously-set
default to `None` — the `default` parameter of `override_option` defaults to
`None` rather than `MISSING`, so it is copied on every call. -/
theorem describe_resets_default :
    (c2Store "x").default = some (PyObj.int 5) ∧
    ((describe "x" "The first number" c2Store) "x").description = some "The first number" ∧
    ((describe "x" "The first number" c2Store) "x").default = some PyObj.pynone ∧
    ((describe "x" "The first number" c2Store) "x").default ≠ (c2Store "x").default := by
  decide

/-- C2 (amended): `override_option(param_name, ...)` mutates only the
descriptor of `param_name`, and within it leaves every field whose argument
was not supplied unchanged — except `default`, which is overwritten on every
call (to the supplied value, or to `None` when not supplied); supplied
fields, `describe`'s description among them, are set. -/
theorem override_option_frame (p : String) (args : OverrideArgs) (opts : OptionStore) :
    (args.type = none → ((override_option p args opts) p).type = (opts p).type) ∧
    (args.name = none → ((override_option p args opts) p).name = (opts p).name) ∧
    (args.description = none →
      ((override_option p args opts) p).description = (opts p).description) ∧
    (args.required = none → ((override_option p args opts) p).required = (opts p).required) ∧
    (args.optional = none → ((override_option p args opts) p).optional = (opts p).optional) ∧
    (args.choices = none → ((override_option p args opts) p).choices = (opts p).choices) ∧
    (args.channel_types = none →
      ((override_option p args opts) p).channel_types = (opts p).channel_types) ∧
    (args.min_value = none → ((override_option p args opts) p).min_value = (opts p).min_value) ∧
    (args.max_value = none → ((override_option p args opts) p).max_value = (opts p).max_value) ∧
    (∀ d, args.description = some d → ((override_option p args opts) p).description = some d) ∧
    (((override_option p args opts) p).default = some args.default) ∧
    (∀ q, q ≠ p → (override_option p args opts) q = opts q) := by
  refine ⟨?_, ?_, ?_, ?_, ?_, ?_, ?_, ?_, ?_, ?_, ?_, ?_⟩
  · intro h; simp [override_option, option, OptionStore.update, h]
  · intro h; simp [override_option, option, OptionStore.update, h]
  · intro h; simp [override_option, option, OptionStore.update, h]
  · intro h; simp [override_option, option, OptionStore.update, h]
  · intro h; simp [override_option, option, OptionStore.update, h]
  · intro h; simp [override_option, option, OptionStore.update, h]
  · intro h; simp [override_option, option, OptionStore.update, h]
  · intro h; simp [override_option, option, OptionStore.update, h]
  · intro h; simp [override_option, option, OptionStore.update, h]
  · intro d h; simp [override_option, option, OptionStore.update, h]
  · simp [override_option, option, OptionStore.update]
  · intro q h; simp [override_option, OptionStore.update, h]

/-- C3 counterexample: `override_option("x", required=True, default=10)` has
set both fields explicitly, yet the registration-time inference pass
overwrites them from the signature (`x` has signature default `3`): the
finalized descriptor carries `required=False, default=3`, not the overridden
values. -/
theorem inference_clobbers_overrides :
    (c3Store "x").required = some true ∧
    (c3Store "x").default = some (PyObj.int 10) ∧
    (Injector.inferOptions c3Command [] c3Store "x").required = some false ∧
    (Injector.inferOptions c3Command [] c3Store "x").default = some (PyObj.int 3) ∧
    (Injector.inferOptions c3Command [] c3Store "x").required ≠ (c3Store "x").required ∧
    (Injector.inferOptions c3Command [] c3Store "x").default ≠ (c3Store "x").default := by
  decide

/-- C3 (amended): the inference pass never touches an overridden description
(inference fills around it), but it unconditionally overwrites the `required`
and `default` fields of every non-excluded parameter from the command's
signature, explicit overrides notwithstanding. -/
theorem inference_overwrite_frame (cmd : LegacyCommand) (ex : List String)
    (opts : OptionStore) (key : String) :
    ((Injector.inferOptions cmd ex opts key).description = (opts key).description) ∧
    (∀ p d, (cmd.clean_params.map Prod.fst).Nodup → (key, p) ∈ cmd.clean_params →
      key ∉ ex → p.default = some d →
      (Injector.inferOptions cmd ex opts key).required = some false ∧
      (Injector.inferOptions cmd ex opts key).default = some d) := by
  constructor
  · exact inferList_description cmd.annotations ex cmd.clean_params opts key
  · intro p d hnd hmem hex hdef
    have h := inferList_mem_default cmd.annotations ex cmd.clean_params opts key p d
      hnd hmem hex hdef
    unfold Injector.inferOptions
    rw [h]
    exact ⟨((annotBranch_fields _ _ _).1).trans rfl,
           ((annotBranch_fields _ _ _).2.1).trans rfl⟩

/-- Witness for the amended C3: the claim's own scenario, concrete. -/
theorem inference_overwrite_frame_witness :
    ((Injector.inferOptions c3Command [] c3Store "x").description =
      (c3Store "x").description) ∧
    ((Injector.inferOptions c3Command [] c3Store "x").required = some false ∧
     (Injector.inferOptions c3Command [] c3Store "x").default = some (PyObj.int 3)) :=
  ⟨(inference_overwrite_frame c3Command [] c3Store "x").1,
   (inference_overwrite_frame c3Command [] c3Store "x").2
     { default := some (PyObj.int 3) } (PyObj.int 3) (by decide) (by decide) (by decide) rfl⟩

/-- C8: the registered schema's description is the explicitly supplied one
when a non-empty one is given; otherwise, when the command has a non-empty
`short_doc`, its first 100 characters; and when neither an explicit
description nor a non-empty short doc exists the Injector raises ValueError
synchronously — the error precedes `add_application_command`, so nothing is
registered. -/
theorem inject_description_law (args : InjectArgs) (cmd : LegacyCommand) (opts : OptionStore) :
    (∀ d, args.description = some d → d ≠ "" →
      (Injector.inject args cmd opts).map CommandSchema.description = Except.ok d) ∧
    (args.description = none → cmd.short_doc ≠ "" →
      (Injector.inject args cmd opts).map CommandSchema.description =
        Except.ok (pySlice cmd.short_doc 100)) ∧
    (args.description = none → cmd.short_doc = "" →
      Injector.inject args cmd opts =
        Except.error ("tried to convert " ++ cmd.func_name ++
          " into an application command, but it has no description")) := by
  refine ⟨?_, ?_, ?_⟩
  · intro d hd hne
    unfold Injector.inject
    simp [hd, hne, Except.map]
  · intro hd hdoc
    unfold Injector.inject
    have h100 := pySlice_100_ne_empty cmd.short_doc hdoc
    simp [hd, hdoc, h100, Except.map]
  · intro hd hdoc
    unfold Injector.inject
    simp [hd, hdoc]

/-- Witness for C8, at the spec's `add` command (doc-derived description) and
at an explicit description. -/
theorem inject_description_law_witness :
    ((Injector.inject { description := some "Adds things" } addCommand emptyStore).map
      CommandSchema.description = Except.ok "Adds things") ∧
    ((Injector.inject {} addCommand emptyStore).map CommandSchema.description =
      Except.ok (pySlice "Adds two numbers together" 100)) ∧
    (Injector.inject {} { name := "bare", func_name := "bare" } emptyStore =
      Except.error "tried to convert bare into an application command, but it has no description") :=
  ⟨(inject_description_law { description := some "Adds things" } addCommand emptyStore).1
      "Adds things" rfl (by decide),
   (inject_description_law {} addCommand emptyStore).2.1 rfl (by decide),
   (inject_description_law {} { name := "bare", func_name := "bare" } emptyStore).2.2 rfl rfl⟩

/-- C9 (code bug): the pending-injection partial stored on a bare callback
captures every `inject` argument except `excluded_options`; binding the
command later therefore registers with an empty exclusion set — here the
excluded parameter `b` gets an option descriptor (marked required) that a
direct `inject` with the same arguments would have left untouched. -/
theorem inject_pending_drops_exclusions :
    compatInjectPending c9Args = { c9Args with excluded_options := [] } ∧
    c9Args.excluded_options = ["b"] ∧
    (Injector.inject c9Args addCommand emptyStore).map
      (fun s => (s.options "b").required) = Except.ok none ∧
    (add_command_bind c9Args addCommand emptyStore).map
      (fun s => (s.options "b").required) = Except.ok (some true) := by
  refine ⟨by decide, rfl, rfl, rfl⟩
